import Mathlib

/-!
Verification of the action-execution engine of `simple-image-click`
(`src/main.py`), shallowly embedded in Lean 4.

Modelling conventions:
* Python result dictionaries `{"status": ..., "message": ...}` become the
  structure `RE` with the exact status strings of the source
  (`"success"`, `"not_found"`, `"timeout"`, `"aborted"`, `"error"`, `"info"`).
* Confidence values (Python floats) are embedded as exact rationals; the
  source's explicit 0.001 floating-point tolerance is kept as `1/1000`.
* The screen (`pyautogui.locateCenterOnScreen`) is an opaque oracle
  `Screen : ℚ → Option Loc` mapping a confidence threshold to a hit, held
  fixed for the duration of one handler call.
* `uuid.uuid4()[:8]` is an externally supplied fresh identifier, passed as
  an explicit argument.
* Wall-clock timeouts of polling loops are embedded as an iteration budget;
  `time.sleep` calls appear as explicit trace events.
-/

namespace ImageClick

/-- One entry of the outcome log: a Python result dict
`{"status": ..., "message": ...}` (src/main.py, e.g. lines 461-479). -/
structure RE where
  status : String
  message : String
deriving DecidableEq

/-- `ExecutionState` (src/main.py lines 25-73): the single-slot, lock-guarded
run tracker.  The lock makes each method atomic, so methods are embedded as
pure state transformers. -/
structure ExecutionState where
  is_running : Bool
  abort_flag : Bool
  execution_id : Option String
  current_step : Nat
  total_steps : Nat
  results : List RE
  completed : Bool
deriving DecidableEq

/-- `ExecutionState.__init__` (lines 26-34). -/
def ExecutionState.init : ExecutionState :=
  { is_running := false, abort_flag := false, execution_id := none,
    current_step := 0, total_steps := 0, results := [], completed := false }

/-- `ExecutionState.start` (lines 36-47): claim the slot.  Returns `none`
and leaves the state untouched if a run is already active; otherwise resets
every field for the new run and returns the fresh id. -/
def ExecutionState.start (st : ExecutionState) (total_steps : Nat)
    (newId : String) : Option String × ExecutionState :=
  if st.is_running then
    (none, st)
  else
    (some newId,
      { is_running := true, abort_flag := false, execution_id := some newId,
        current_step := 0, total_steps := total_steps, results := [],
        completed := false })

/-- `ExecutionState.add_result` (lines 49-52): append an outcome and set
`current_step` to the new log length. -/
def ExecutionState.add_result (st : ExecutionState) (r : RE) : ExecutionState :=
  let res := st.results ++ [r]
  { st with results := res, current_step := res.length }

/-- `ExecutionState.finish` (lines 54-57). -/
def ExecutionState.finish (st : ExecutionState) : ExecutionState :=
  { st with completed := true, is_running := false }

/-- `ExecutionState.abort` (lines 59-61): sets the abort flag
unconditionally. -/
def ExecutionState.abort (st : ExecutionState) : ExecutionState :=
  { st with abort_flag := true }

/-- The snapshot returned by `ExecutionState.get_status` (lines 63-73). -/
structure StatusView where
  is_running : Bool
  execution_id : Option String
  current_step : Nat
  total_steps : Nat
  results : List RE
  completed : Bool
  aborted : Bool
deriving DecidableEq

/-- `ExecutionState.get_status` (lines 63-73): a pure read. -/
def ExecutionState.get_status (st : ExecutionState) : StatusView :=
  { is_running := st.is_running, execution_id := st.execution_id,
    current_step := st.current_step, total_steps := st.total_steps,
    results := st.results, completed := st.completed,
    aborted := st.abort_flag }

/-- The operations that touch `ExecutionState` (claim, append-outcome,
finish, cancel request = `abort_execution`, status snapshot). -/
inductive Op where
  | startOp (n : Nat) (id : String)
  | addOp (r : RE)
  | finishOp
  | abortOp
  | snapshotOp
deriving DecidableEq

/-- Effect of one operation on the state (the snapshot mutates nothing). -/
def Op.apply (st : ExecutionState) : Op → ExecutionState
  | .startOp n id => (st.start n id).2
  | .addOp r => st.add_result r
  | .finishOp => st.finish
  | .abortOp => st.abort
  | .snapshotOp => st

/-- Run a sequence of operations from a state. -/
def applyOps (st : ExecutionState) (ops : List Op) : ExecutionState :=
  ops.foldl Op.apply st

/-- Process-wide mutable state relevant to run control: the `ExecutionState`
singleton plus the legacy global `execution_abort_flag` (line 78). -/
structure Sys where
  es : ExecutionState
  execution_abort_flag : Bool
deriving DecidableEq

/-- `abort_execution` (lines 318-324): a cancel request sets the legacy
global flag and the state flag. -/
def abort_execution (s : Sys) : Sys :=
  { es := s.es.abort, execution_abort_flag := true }

/-- Reply of the `/api/execute` endpoint: HTTP 400, HTTP 409, or the
started acknowledgment with the run id. -/
inductive StartReply where
  | badRequest
  | conflict
  | started (id : String)
deriving DecidableEq

/-- The synchronous part of `execute_actions` (lines 484-514): reset the
legacy global abort flag, reject an empty action list with 400, then try to
claim the slot; on conflict reply 409.  (On success the background thread is
spawned; its behavior is modelled separately.) -/
def execute_actions (s : Sys) (numActions : Nat) (newId : String) :
    StartReply × Sys :=
  let s1 : Sys := { es := s.es, execution_abort_flag := false }
  if numActions = 0 then
    (.badRequest, s1)
  else
    let r := s1.es.start numActions newId
    match r.1 with
    | none => (.conflict, { es := r.2, execution_abort_flag := false })
    | some id => (.started id, { es := r.2, execution_abort_flag := false })

/-- A concrete system state with an active run and both cancellation flags
set (as after `/api/abort` during a run). -/
def activeSys : Sys :=
  { es := { is_running := true, abort_flag := true, execution_id := some "a",
            current_step := 0, total_steps := 1, results := [],
            completed := false },
    execution_abort_flag := true }

/-- Claim C1, counterexample: at a system state with an active run and both
cancellation flags set by a prior cancel request, a second (rejected,
conflict-replied) start request resets the legacy global
`execution_abort_flag` from `true` to `false` — one of the cancellation
flags the running handlers observe is changed by the rejected request,
contradicting the claim that every such component is unchanged. -/
theorem c1_counterexample :
    activeSys.es.is_running = true
    ∧ activeSys.execution_abort_flag = true
    ∧ (execute_actions activeSys 1 "b").1 = StartReply.conflict
    ∧ ((execute_actions activeSys 1 "b").2).execution_abort_flag = false := by
  decide

/-- Claim C1 (corrected): for every start request submitted while a run is
active, no run id is returned and the request is not queued — the reply is
the conflict signal when the request is nonempty (an empty request is
rejected earlier with a bad-request signal) — and every field of the active
run's `ExecutionState` (isRunning, runId, stepIndex, totalSteps, outcome
log, completed flag, and the state abort flag) is unchanged; however the
legacy global `execution_abort_flag` is reset to `false` by the rejected
request.  Because every cancel request sets both flags, whenever the global
flag implies the state flag the disjunction the running handlers observe is
still unchanged. -/
theorem c1_reject_frame (s : Sys) (n : Nat) (id : String)
    (hrun : s.es.is_running = true) :
    ((execute_actions s n id).1
        = if n = 0 then StartReply.badRequest else StartReply.conflict)
    ∧ ((execute_actions s n id).2).es = s.es
    ∧ ((execute_actions s n id).2).execution_abort_flag = false
    ∧ ((s.execution_abort_flag = true → s.es.abort_flag = true) →
        (((execute_actions s n id).2).es.abort_flag
            || ((execute_actions s n id).2).execution_abort_flag)
          = (s.es.abort_flag || s.execution_abort_flag)) := by
  unfold execute_actions ExecutionState.start
  by_cases hn : n = 0
  · simp only [hn, if_pos rfl, hrun]
    refine ⟨rfl, rfl, rfl, ?_⟩
    intro himp
    cases hg : s.execution_abort_flag
    · simp
    · simp [himp hg]
  · simp only [if_neg hn, hrun, if_pos rfl]
    refine ⟨rfl, rfl, rfl, ?_⟩
    intro himp
    cases hg : s.execution_abort_flag
    · simp
    · simp [himp hg]

/-- Witness for `c1_reject_frame` at the concrete state `activeSys`, with
every hypothesis discharged. -/
theorem c1_reject_frame_witness :
    (execute_actions activeSys 1 "b").1 = StartReply.conflict
    ∧ ((execute_actions activeSys 1 "b").2).es = activeSys.es
    ∧ ((execute_actions activeSys 1 "b").2).execution_abort_flag = false
    ∧ (((execute_actions activeSys 1 "b").2).es.abort_flag
          || ((execute_actions activeSys 1 "b").2).execution_abort_flag)
        = (activeSys.es.abort_flag || activeSys.execution_abort_flag) := by
  have h := c1_reject_frame activeSys 1 "b" (by decide)
  refine ⟨?_, h.2.1, h.2.2.1, h.2.2.2 (fun _ => by decide)⟩
  simpa using h.1

/-- Claim C2, counterexample: after a normally finished run
(`completed = true`, abort flag `false`), a cancel request still flips the
abort flag to `true` with no intervening run claim — the abort flag is not
frozen once `completed` is true. -/
theorem c2_counterexample :
    (((ExecutionState.init.start 1 "a").2).finish).completed = true
    ∧ (((ExecutionState.init.start 1 "a").2).finish).abort_flag = false
    ∧ ((((ExecutionState.init.start 1 "a").2).finish).abort).abort_flag = true
    ∧ ((((ExecutionState.init.start 1 "a").2).finish).abort).completed = true := by
  decide

/-- Invariant: in every state reachable from `ExecutionState.init`,
`completed = true` implies `is_running = false`. -/
theorem completed_not_running (ops : List Op) :
    (applyOps ExecutionState.init ops).completed = true →
    (applyOps ExecutionState.init ops).is_running = false := by
  suffices h : ∀ (st : ExecutionState) (l : List Op),
      (st.completed = true → st.is_running = false) →
      ((applyOps st l).completed = true → (applyOps st l).is_running = false) by
    exact h ExecutionState.init ops (by intro hc; cases hc)
  intro st l
  induction l generalizing st with
  | nil => intro h; exact h
  | cons op rest ih =>
    intro h
    refine ih (Op.apply st op) ?_
    cases op with
    | startOp n id =>
      by_cases hr : st.is_running
      · simpa [Op.apply, ExecutionState.start, hr] using h
      · intro hc
        simp [Op.apply, ExecutionState.start, hr] at hc
    | addOp r => simpa [Op.apply, ExecutionState.add_result] using h
    | finishOp => intro _; simp [Op.apply, ExecutionState.finish]
    | abortOp => simpa [Op.apply, ExecutionState.abort] using h
    | snapshotOp => simpa [Op.apply] using h

/-- Claim C2 (corrected): in every reachable `ExecutionState`, once the
completed flag is true, isRunning is false, and the abort flag's value is
unchanged by append-outcome and finish operations; it is NOT frozen against
a cancel request, which sets it to `true` even after completion; the next
run claim always succeeds from a completed state and resets the abort flag
to `false`. -/
theorem c2_completed_flag_behavior (ops : List Op) :
    ((applyOps ExecutionState.init ops).completed = true →
        (applyOps ExecutionState.init ops).is_running = false)
    ∧ (∀ r, ((applyOps ExecutionState.init ops).add_result r).abort_flag
          = (applyOps ExecutionState.init ops).abort_flag)
    ∧ (((applyOps ExecutionState.init ops).finish).abort_flag
          = (applyOps ExecutionState.init ops).abort_flag)
    ∧ (((applyOps ExecutionState.init ops).abort).abort_flag = true)
    ∧ ((applyOps ExecutionState.init ops).completed = true →
        ∀ n id, ((applyOps ExecutionState.init ops).start n id).1 = some id
          ∧ (((applyOps ExecutionState.init ops).start n id).2).abort_flag
              = false) := by
  refine ⟨completed_not_running ops, ?_, rfl, rfl, ?_⟩
  · intro r; rfl
  · intro hc n id
    have hnr : (applyOps ExecutionState.init ops).is_running = false :=
      completed_not_running ops hc
    constructor <;> simp [ExecutionState.start, hnr]

/-- Witness for `c2_completed_flag_behavior` after the concrete run
`start; finish` (whose final state has `completed = true`), with every
hypothesis discharged. -/
theorem c2_completed_flag_behavior_witness :
    (applyOps ExecutionState.init [Op.startOp 1 "a", Op.finishOp]).is_running
      = false
    ∧ ((applyOps ExecutionState.init
          [Op.startOp 1 "a", Op.finishOp]).add_result
            { status := "info", message := "m" }).abort_flag
        = (applyOps ExecutionState.init
            [Op.startOp 1 "a", Op.finishOp]).abort_flag
    ∧ (((applyOps ExecutionState.init
          [Op.startOp 1 "a", Op.finishOp]).finish).abort_flag
        = (applyOps ExecutionState.init
            [Op.startOp 1 "a", Op.finishOp]).abort_flag)
    ∧ (((applyOps ExecutionState.init
          [Op.startOp 1 "a", Op.finishOp]).abort).abort_flag = true)
    ∧ ((applyOps ExecutionState.init
          [Op.startOp 1 "a", Op.finishOp]).start 2 "b").1 = some "b"
    ∧ (((applyOps ExecutionState.init
          [Op.startOp 1 "a", Op.finishOp]).start 2 "b").2).abort_flag
        = false := by
  have h := c2_completed_flag_behavior [Op.startOp 1 "a", Op.finishOp]
  exact ⟨h.1 (by decide), h.2.1 { status := "info", message := "m" },
    h.2.2.1, h.2.2.2.1, (h.2.2.2.2 (by decide) 2 "b").1,
    (h.2.2.2.2 (by decide) 2 "b").2⟩

/-- Claim C3 (confirmed): after every sequence of claim, append-outcome,
finish, cancel and snapshot operations starting from the initial state,
`current_step` (stepIndex) equals the length of the outcome log. -/
theorem c3_step_index_eq_log_length (ops : List Op) :
    (applyOps ExecutionState.init ops).current_step
      = (applyOps ExecutionState.init ops).results.length := by
  suffices h : ∀ (st : ExecutionState) (l : List Op),
      st.current_step = st.results.length →
      (applyOps st l).current_step = (applyOps st l).results.length by
    exact h ExecutionState.init ops rfl
  intro st l
  induction l generalizing st with
  | nil => intro h; exact h
  | cons op rest ih =>
    intro h
    refine ih (Op.apply st op) ?_
    cases op with
    | startOp n id =>
      by_cases hr : st.is_running
      · simpa [Op.apply, ExecutionState.start, hr] using h
      · simp [Op.apply, ExecutionState.start, hr]
    | addOp r => simp [Op.apply, ExecutionState.add_result]
    | finishOp => simpa [Op.apply, ExecutionState.finish] using h
    | abortOp => simpa [Op.apply, ExecutionState.abort] using h
    | snapshotOp => simpa [Op.apply] using h

/-- A screen coordinate (`pyautogui` point). -/
abbrev Loc := Int × Int

/-- The screen-probe oracle: `pyautogui.locateCenterOnScreen` at a given
confidence threshold either yields a hit location or nothing (the source
treats `ImageNotFoundException` and any other exception alike as "no
match").  Held fixed during one handler call. -/
abbrev Screen := ℚ → Option Loc

/-- Number of iterations of the threshold-ladder loop of `execute_click`
(lines 558-573): the loop body runs for `current_conf = confidence - k/50`
exactly while `current_conf ≥ min_confidence - 0.001`, i.e. for
`k ≤ ⌊(confidence - min_confidence + 1/1000) * 50⌋`. -/
def numSteps (confidence min_confidence : ℚ) : Nat :=
  (⌊(confidence - min_confidence + 1 / 1000) * 50⌋ + 1).toNat

/-- The descending ladder of thresholds visited by the while loop
`while current_conf >= min_confidence - 0.001: ...; current_conf -= 0.02`
(lines 559-573). -/
def ladderThresholds (confidence min_confidence : ℚ) : List ℚ :=
  (List.range (numSteps confidence min_confidence)).map
    (fun k : ℕ => confidence - (k : ℚ) * (1 / 50))

/-- One full pass of the threshold ladder: probe the screen at each
threshold from `confidence` downward and return the first hit together
with the threshold at which it was found (lines 559-573). -/
def ladderSearch (screen : Screen) (confidence min_confidence : ℚ) :
    Option (ℚ × Loc) :=
  (ladderThresholds confidence min_confidence).findSome?
    (fun conf => (screen conf).map (fun loc => (conf, loc)))

/-- The retry loop of `execute_click` (line 556: `for retry in
range(max_retries)`): repeat the full ladder pass up to `max_retries`
times.  The screen oracle is fixed, so each pass probes identically; the
1-second backoff between passes is not observable here. -/
def clickRetryLoop (screen : Screen) (confidence min_confidence : ℚ) :
    Nat → Option (ℚ × Loc)
  | 0 => none
  | retries + 1 =>
    match ladderSearch screen confidence min_confidence with
    | some hit => some hit
    | none => clickRetryLoop screen confidence min_confidence retries

/-- `find_best_match_confidence` (lines 517-544): probe at the target
threshold; if that fails, probe the fixed coarse ladder 0.7, 0.6, 0.5,
0.4, 0.3, skipping entries `≥ target_confidence`, and report the first
diagnostic hit. -/
def find_best_match_confidence (screen : Screen) (target_confidence : ℚ) :
    Option (ℚ × Loc) :=
  match screen target_confidence with
  | some loc => some (target_confidence, loc)
  | none =>
    (([(7 : ℚ) / 10, 6 / 10, 5 / 10, 4 / 10, 3 / 10].filter
        (fun conf => decide (conf < target_confidence))).findSome?
      (fun conf => (screen conf).map (fun loc => (conf, loc))))

/-- Structured form of the result dict of `execute_click` (lines 547-585).
`steppedDown` records whether the success message carries the
"detected at N% accuracy" note, which the source adds exactly when
`current_conf < confidence - 0.001` (line 565); `best` is the diagnostic
confidence of the not-found message (lines 580-585). -/
inductive ClickR where
  | errorR (message : String)
  | successR (conf : ℚ) (loc : Loc) (steppedDown : Bool)
  | notFoundR (best : Option ℚ)
deriving DecidableEq

/-- `execute_click` (lines 547-585): missing/nonexistent image checks, the
retried descending-threshold search, and the diagnostic pass on failure. -/
def execute_click (screen : Screen) (image_name : String)
    (imageExists : Bool) (confidence min_confidence : ℚ)
    (max_retries : Nat) : ClickR :=
  if image_name = "" then
    .errorR "画像が指定されていません"
  else if imageExists = false then
    .errorR ("画像ファイルが見つかりません: " ++ image_name)
  else
    match clickRetryLoop screen confidence min_confidence max_retries with
    | some (conf, loc) =>
      .successR conf loc (decide (conf < confidence - 1 / 1000))
    | none =>
      match find_best_match_confidence screen min_confidence with
      | some (found_conf, _) => .notFoundR (some found_conf)
      | none => .notFoundR none

/-- Every threshold the ladder visits is at least
`min_confidence - 0.001`. -/
theorem ladderThresholds_lower_bound {confidence min_confidence q : ℚ}
    (hq : q ∈ ladderThresholds confidence min_confidence) :
    min_confidence - 1 / 1000 ≤ q := by
  rcases List.mem_map.mp hq with ⟨k, hk, rfl⟩
  rcases List.mem_range.mp hk with hklt
  unfold numSteps at hklt
  have hk_int : (k : ℤ) < ⌊(confidence - min_confidence + 1 / 1000) * 50⌋ + 1 := by
    exact_mod_cast Int.lt_toNat.mp hklt
  have hk_le : (k : ℤ) ≤ ⌊(confidence - min_confidence + 1 / 1000) * 50⌋ :=
    Int.lt_add_one_iff.mp hk_int
  have hk_rat : (k : ℚ) ≤ (confidence - min_confidence + 1 / 1000) * 50 := by
    calc (k : ℚ) = ((k : ℤ) : ℚ) := by push_cast; ring
    _ ≤ (⌊(confidence - min_confidence + 1 / 1000) * 50⌋ : ℚ) := by
        exact_mod_cast hk_le
    _ ≤ (confidence - min_confidence + 1 / 1000) * 50 := Int.floor_le _
  nlinarith [hk_rat]

/-- If the ladder is nonempty, its first threshold is `confidence`
itself. -/
theorem ladderThresholds_cons {confidence min_confidence : ℚ} {n : Nat}
    (hn : numSteps confidence min_confidence = n + 1) :
    ∃ tl, ladderThresholds confidence min_confidence = confidence :: tl := by
  refine ⟨(List.range n).map
    (fun k : ℕ => confidence - ((k : ℚ) + 1) * (1 / 50)), ?_⟩
  unfold ladderThresholds
  rw [hn, List.range_succ_eq_map, List.map_cons, List.map_map]
  congr 1
  · norm_num
  · apply List.map_congr_left
    intro a _
    simp only [Function.comp_apply]
    push_cast
    ring

/-- A hit returned by one ladder pass was found at one of the visited
thresholds. -/
theorem ladderSearch_mem {screen : Screen} {confidence min_confidence : ℚ}
    {conf : ℚ} {loc : Loc}
    (h : ladderSearch screen confidence min_confidence = some (conf, loc)) :
    conf ∈ ladderThresholds confidence min_confidence
      ∧ screen conf = some loc := by
  obtain ⟨q, hq_mem, hq_eq⟩ := List.exists_of_findSome?_eq_some h
  cases hsq : screen q with
  | none => rw [hsq] at hq_eq; cases hq_eq
  | some l =>
    rw [hsq] at hq_eq
    have hpair : (q, l) = (conf, loc) := Option.some.inj hq_eq
    have h1 : q = conf := congrArg Prod.fst hpair
    have h2 : l = loc := congrArg Prod.snd hpair
    subst h1; subst h2
    exact ⟨hq_mem, hsq⟩

/-- If the screen matches at the top threshold and the ladder is nonempty,
one ladder pass returns the top threshold. -/
theorem ladderSearch_top_hit {screen : Screen} {confidence min_confidence : ℚ}
    {loc : Loc} (htop : screen confidence = some loc) {n : Nat}
    (hn : numSteps confidence min_confidence = n + 1) :
    ladderSearch screen confidence min_confidence = some (confidence, loc) := by
  obtain ⟨tl, htl⟩ := ladderThresholds_cons hn
  unfold ladderSearch
  rw [htl, List.findSome?_cons]
  simp [htop]

/-- A hit returned by the retry loop comes from one ladder pass. -/
theorem clickRetryLoop_eq_ladderSearch {screen : Screen}
    {confidence min_confidence : ℚ} {hit : ℚ × Loc} {retries : Nat}
    (h : clickRetryLoop screen confidence min_confidence retries = some hit) :
    ladderSearch screen confidence min_confidence = some hit := by
  induction retries with
  | zero => cases h
  | succ r ih =>
    unfold clickRetryLoop at h
    obtain hl | ⟨x, hl⟩ :=
      Option.eq_none_or_eq_some (ladderSearch screen confidence min_confidence)
    · rw [hl] at h; exact ih h
    · rw [hl] at h; exact hl.trans h

/-- Claim C4 (confirmed): a found match returned by the confidence search
of `execute_click` never has confidence strictly below
`min_confidence - 0.001` (the source's floating-point tolerance), and the
stepped-down note is reported only when the returned confidence is strictly
below `confidence` — which happens only when the probe at the top threshold
found nothing. -/
theorem c4_confidence_search_bounds (screen : Screen) (image_name : String)
    (imageExists : Bool) (confidence min_confidence : ℚ) (max_retries : Nat)
    (conf : ℚ) (loc : Loc) (sd : Bool)
    (h : execute_click screen image_name imageExists confidence
          min_confidence max_retries = .successR conf loc sd) :
    min_confidence - 1 / 1000 ≤ conf
    ∧ (sd = true → conf < confidence ∧ screen confidence = none) := by
  unfold execute_click at h
  by_cases hname : image_name = ""
  · rw [if_pos hname] at h; cases h
  rw [if_neg hname] at h
  by_cases hex : imageExists = false
  · rw [if_pos hex] at h; cases h
  rw [if_neg hex] at h
  obtain hr | ⟨⟨q, l⟩, hr⟩ := Option.eq_none_or_eq_some
    (clickRetryLoop screen confidence min_confidence max_retries)
  · rw [hr] at h
    obtain hb | ⟨⟨q, l⟩, hb⟩ := Option.eq_none_or_eq_some
      (find_best_match_confidence screen min_confidence)
    · rw [hb] at h; cases h
    · rw [hb] at h; cases h
  rw [hr] at h
  have hq : q = conf := by cases h; rfl
  have hsd : sd = decide (conf < confidence - 1 / 1000) := by cases h; rfl
  subst hq
  have hladder : ladderSearch screen confidence min_confidence
      = some (q, l) := clickRetryLoop_eq_ladderSearch hr
  obtain ⟨hmem, _⟩ := ladderSearch_mem hladder
  refine ⟨ladderThresholds_lower_bound hmem, ?_⟩
  intro hsdt
  rw [hsdt] at hsd
  have hlt : q < confidence - 1 / 1000 := of_decide_eq_true hsd.symm
  have hltc : q < confidence := by linarith
  refine ⟨hltc, ?_⟩
  obtain hsc | ⟨l2, hsc⟩ := Option.eq_none_or_eq_some (screen confidence)
  · exact hsc
  exfalso
  have hne : ladderThresholds confidence min_confidence ≠ [] :=
    List.ne_nil_of_mem hmem
  have hpos : numSteps confidence min_confidence ≠ 0 := by
    intro h0
    apply hne
    unfold ladderThresholds
    rw [h0]
    rfl
  obtain ⟨n, hn⟩ := Nat.exists_eq_succ_of_ne_zero hpos
  have htop := ladderSearch_top_hit hsc hn
  rw [hladder] at htop
  have : q = confidence := by
    have hp := Option.some.inj htop
    exact (Prod.mk.injEq q l confidence l2 ▸ hp).1
  rw [this] at hltc
  exact lt_irrefl _ hltc

/-- A screen oracle that matches everywhere (used as a concrete witness
input). -/
def screenConst : Screen := fun _ => some (1, 2)

/-- Witness for `c4_confidence_search_bounds`: a concrete click at
confidence 0.95, floor 0.7, against a screen that matches at the top
threshold; the search succeeds at 0.95 with no stepped-down note, and the
claimed bounds hold there. -/
theorem c4_confidence_search_bounds_witness :
    execute_click screenConst "btn.png" true (95 / 100) (7 / 10) 2
      = ClickR.successR (95 / 100) (1, 2) false
    ∧ (7 : ℚ) / 10 - 1 / 1000 ≤ 95 / 100
    ∧ (false = true →
        (95 : ℚ) / 100 < 95 / 100 ∧ screenConst (95 / 100) = none) := by
  have h13 : numSteps (95 / 100) (7 / 10) = 13 := by
    have hf : ⌊(((95 : ℚ) / 100) - 7 / 10 + 1 / 1000) * 50⌋ = 12 := by
      rw [Int.floor_eq_iff]
      constructor
      · norm_num
      · norm_num
    unfold numSteps
    rw [hf]
    rfl
  have hl : ladderSearch screenConst (95 / 100) (7 / 10)
      = some (95 / 100, (1, 2)) :=
    ladderSearch_top_hit rfl (n := 12) h13
  have hretry : clickRetryLoop screenConst (95 / 100) (7 / 10) 2
      = some (95 / 100, (1, 2)) := by
    unfold clickRetryLoop
    rw [hl]
  have hsd : decide ((95 : ℚ) / 100 < 95 / 100 - 1 / 1000) = false :=
    decide_eq_false (by norm_num)
  have heq : execute_click screenConst "btn.png" true (95 / 100) (7 / 10) 2
      = ClickR.successR (95 / 100) (1, 2) false := by
    unfold execute_click
    rw [if_neg (by decide), if_neg (by decide), hretry]
    show ClickR.successR (95 / 100) (1, 2)
      (decide ((95 : ℚ) / 100 < 95 / 100 - 1 / 1000)) = _
    rw [hsd]
  have hc := c4_confidence_search_bounds screenConst "btn.png" true
    (95 / 100) (7 / 10) 2 (95 / 100) (1, 2) false heq
  exact ⟨heq, hc.1, hc.2⟩

/-- Python `str.strip()`: drop leading and trailing whitespace
(`Char.isWhitespace` models Python's whitespace set). -/
def pyStrip (s : String) : String :=
  String.mk
    (((s.toList.dropWhile Char.isWhitespace).reverse.dropWhile
        Char.isWhitespace).reverse)

/-- The characters removed by `sanitize_filename`'s first regex
`[\\/:*?"<>|\r\n\t]` (line 786). -/
def forbiddenFilenameChar (c : Char) : Bool :=
  c = '\\' || c = '/' || c = ':' || c = '*' || c = '?' || c = '"' ||
    c = '<' || c = '>' || c = '|' || c = '\r' || c = '\n' || c = '\t'

/-- The second regex substitution of `sanitize_filename`
(`\s+` -> `_`, line 788): replace every maximal run of whitespace by a
single underscore.  The flag records whether we are inside a run. -/
def collapseWsAux : List Char → Bool → List Char
  | [], _ => []
  | c :: rest, inRun =>
    if c.isWhitespace then
      (if inRun then [] else ['_']) ++ collapseWsAux rest true
    else
      c :: collapseWsAux rest false

/-- `sanitize_filename` (lines 782-792): remove forbidden characters,
collapse whitespace runs to `_`, truncate to `max_length` code points,
fall back to "untitled" when empty. -/
def sanitize_filename (text : String) (max_length : Nat) : String :=
  let removed := text.toList.filter (fun c => !forbiddenFilenameChar c)
  let collapsed := collapseWsAux removed false
  let truncated := collapsed.take max_length
  if truncated.isEmpty then "untitled" else String.mk truncated

/-- The group-name labels of `execute_save_to_file` (lines 850-855,
line 866): `GROUP_LABELS.get(group_name, '未分類') if group_name else
'未分類'`. -/
def groupLabel (group_name : Option String) : String :=
  match group_name with
  | none => "未分類"
  | some g =>
    if g = "" then "未分類"
    else if g = "ai-normal" then "AI-通常"
    else if g = "ai-dr" then "AI-DR"
    else if g = "blog" then "ブログ投稿"
    else if g = "image-gen" then "画像生成"
    else "未分類"

/-- Structured outcome of `execute_save_to_file`: the result dict plus the
observable effects the claims speak about — whether a file write was
performed and the filename fragment derived from the snippet. -/
structure SaveOutcome where
  status : String
  message : String
  wrote : Bool
  text_part : String
deriving DecidableEq

/-- `execute_save_to_file` (lines 844-911).  The snippet store is an
association list id -> text; the clipboard is `none` when
`pyperclip.paste()` raised.  Pure-model assumption: the final file append
(lines 897-899) always succeeds — the OSError fallback of lines 910-911 is
the only unrepresented path. -/
def execute_save_to_file (text_id : Option String)
    (group_name : Option String) (texts : List (String × String))
    (clipboard : Option String) : SaveOutcome :=
  let resolved : Option String :=
    match text_id with
    | some tid => if tid = "" then none else texts.lookup tid
    | none => none
  let text_part : String :=
    match resolved with
    | some t => sanitize_filename t 30
    | none =>
      "text_" ++
        (match text_id with
         | some tid => if tid = "" then "unknown" else tid
         | none => "unknown")
  let filename_base := groupLabel group_name ++ "_" ++ text_part
  match clipboard with
  | none =>
    { status := "error", message := "クリップボード取得エラー",
      wrote := false, text_part := text_part }
  | some clip =>
    if clip = "" ∨ pyStrip clip = "" then
      { status := "error",
        message := "[ファイル保存] クリップボードが空です。コピー操作を忘れていませんか？",
        wrote := false, text_part := text_part }
    else
      match resolved with
      | some t =>
        if t ≠ "" ∧ pyStrip clip = pyStrip t then
          { status := "error",
            message := "[ファイル保存] クリップボードの内容がプロンプトと同じです。回答をコピーし忘れていませんか？",
            wrote := false, text_part := text_part }
        else
          { status := "success",
            message := "[ファイル保存] " ++ filename_base ++ ".txt に追記しました",
            wrote := true, text_part := text_part }
      | none =>
        { status := "success",
          message := "[ファイル保存] " ++ filename_base ++ ".txt に追記しました",
          wrote := true, text_part := text_part }

/-- Claim C5 (confirmed): when the snippet id resolves to stored text and
the clipboard content is byte-identical to that text, or the clipboard is
empty, `execute_save_to_file` returns an Error outcome and performs no file
write. -/
theorem c5_save_identical_clipboard_errors (tid t clip : String)
    (group : Option String) (texts : List (String × String))
    (htid : tid ≠ "") (hlook : texts.lookup tid = some t)
    (hclip : clip = t ∨ clip = "") :
    (execute_save_to_file (some tid) group texts (some clip)).status
      = "error"
    ∧ (execute_save_to_file (some tid) group texts (some clip)).wrote
      = false := by
  unfold execute_save_to_file
  simp only [if_neg htid, hlook]
  by_cases hempty : clip = "" ∨ pyStrip clip = ""
  · rw [if_pos hempty]
    exact ⟨rfl, rfl⟩
  · rw [if_neg hempty]
    rcases hclip with rfl | rfl
    · have hne : clip ≠ "" := by
        intro h0
        exact hempty (Or.inl h0)
      rw [if_pos ⟨hne, rfl⟩]
      exact ⟨rfl, rfl⟩
    · exact absurd (Or.inl rfl) hempty

/-- Witness for `c5_save_identical_clipboard_errors`: snippet "hello"
stored under id "12345678", clipboard also "hello". -/
theorem c5_save_identical_clipboard_errors_witness :
    (execute_save_to_file (some "12345678") none [("12345678", "hello")]
        (some "hello")).status = "error"
    ∧ (execute_save_to_file (some "12345678") none [("12345678", "hello")]
        (some "hello")).wrote = false :=
  c5_save_identical_clipboard_errors "12345678" "hello" "hello" none
    [("12345678", "hello")] (by decide) (by decide) (Or.inl rfl)

/-- Claim C9, counterexample: with an unknown snippet id and the non-empty
(but whitespace-only) clipboard " ", the handler returns an Error outcome
and writes nothing — it does not append the clipboard content and return
Success as the claim states for every non-empty clipboard. -/
theorem c9_counterexample :
    (execute_save_to_file (some "99999999") none [] (some " ")).status
      = "error"
    ∧ (execute_save_to_file (some "99999999") none [] (some " ")).wrote
      = false
    ∧ (some " " : Option String) ≠ some "" := by
  refine ⟨?_, ?_, by decide⟩ <;> rfl

/-- Claim C9 (corrected): for every SaveClipboardToFile action whose
snippet id is missing or not present in the snippet store, with clipboard
content that is non-empty after stripping whitespace (not merely non-empty),
the handler does not return an Error for the unknown id: it falls back to
the filename fragment `text_<id>` (`text_unknown` when the id is missing),
skips the clipboard-identical-to-snippet guard, performs the file append,
and returns Success. -/
theorem c9_unknown_id_fallback (text_id : Option String)
    (group : Option String) (texts : List (String × String)) (clip : String)
    (hid : text_id = none
        ∨ ∃ tid, text_id = some tid ∧ tid ≠ "" ∧ texts.lookup tid = none)
    (hclip : pyStrip clip ≠ "") :
    (execute_save_to_file text_id group texts (some clip)).status = "success"
    ∧ (execute_save_to_file text_id group texts (some clip)).wrote = true
    ∧ (execute_save_to_file text_id group texts (some clip)).text_part
      = (match text_id with
         | some tid => "text_" ++ tid
         | none => "text_unknown") := by
  have hclipne : clip ≠ "" := by
    intro h0
    rw [h0] at hclip
    exact hclip rfl
  have hempty : ¬(clip = "" ∨ pyStrip clip = "") := by
    rintro (h0 | h0)
    · exact hclipne h0
    · exact hclip h0
  rcases hid with rfl | ⟨tid, rfl, htid, hlook⟩
  · simp only [execute_save_to_file]
    rw [if_neg hempty]
    exact ⟨rfl, rfl, rfl⟩
  · simp only [execute_save_to_file, if_neg htid, hlook]
    rw [if_neg hempty]
    exact ⟨rfl, rfl, rfl⟩

/-- Witness for `c9_unknown_id_fallback`: unknown id "99999999" with
clipboard "reply text". -/
theorem c9_unknown_id_fallback_witness :
    (execute_save_to_file (some "99999999") none [] (some "reply")).status
      = "success"
    ∧ (execute_save_to_file (some "99999999") none [] (some "reply")).wrote
      = true
    ∧ (execute_save_to_file (some "99999999") none []
        (some "reply")).text_part = "text_99999999" := by
  have h := c9_unknown_id_fallback (some "99999999") none [] "reply"
    (Or.inr ⟨"99999999", rfl, by decide, rfl⟩) (by decide)
  exact ⟨h.1, h.2.1, h.2.2⟩

/-- An exception escaping an action handler: the runtime type name
(`type(e).__name__`) and the optional source-location hint extracted from
the traceback (lines 470-478; the hint is present when the traceback has at
least two lines). -/
structure Exn where
  tyName : String
  locHint : Option String
deriving DecidableEq

/-- Behavior of one dispatched action handler, as observed by the executor
loop: either it returns a final result dict after having pushed `infos`
through `execution_state.add_result` itself (only `execute_loop_click`
does that), or it raises an exception after having pushed `infos`. -/
inductive HandlerB where
  | returns (infos : List RE) (final : RE)
  | raises (infos : List RE) (e : Exn)
deriving DecidableEq

/-- One action of a run as the executor sees it: the `action_context`
string built from its image name(s) (lines 434-439, empty when the action
names no image) and the handler behavior. -/
structure ActionB where
  ctx : String
  behavior : HandlerB
deriving DecidableEq

/-- Observable events of a run: outcomes appended to `ExecutionState`, the
pre-run start-delay sleep (line 410), and the inter-action interval sleep
(line 467). -/
inductive Ev where
  | appended (r : RE)
  | sleptStartDelay (q : ℚ)
  | sleptInterval (q : ℚ)
deriving DecidableEq

/-- The error message the executor builds in its `except` block
(lines 473-478): `"エラー: " + type name`, the action context in
parentheses when nonempty, and the traceback location hint when
available. -/
def executorErrorMsg (tyName ctx : String) (locHint : Option String) :
    String :=
  "エラー: " ++ tyName
    ++ (if ctx = "" then "" else " (" ++ ctx ++ ")")
    ++ (match locHint with
        | some l => " [場所: " ++ l ++ "]"
        | none => "")

/-- The outcome the executor appends when the abort flags are observed at
the per-action checkpoint (line 420). -/
def abortedEntry : RE :=
  { status := "aborted", message := "[中止] ユーザーにより中止されました" }

/-- The info marker appended before the start delay (line 409; the
interpolated delay value of the f-string is not modelled). -/
def startDelayEntry : RE :=
  { status := "info", message := "[開始待機] 待機中..." }

/-- The outcome appended when the abort flags are observed right after the
start delay (line 413). -/
def delayAbortedEntry : RE :=
  { status := "aborted", message := "[開始待機] 中止されました" }

/-- The final outcome the executor appends for one action: the handler's
returned dict, or the converted error dict when the handler raised
(lines 463, 479). -/
def finalEntry (a : ActionB) : RE :=
  match a.behavior with
  | .returns _ final => final
  | .raises _ e =>
    { status := "error", message := executorErrorMsg e.tyName a.ctx e.locHint }

/-- The outcomes a handler pushes itself before finishing or raising. -/
def handlerInfos (a : ActionB) : List RE :=
  match a.behavior with
  | .returns infos _ => infos
  | .raises infos _ => infos

/-- All outcomes one action contributes to the log, in order. -/
def actionEntries (a : ActionB) : List RE :=
  handlerInfos a ++ [finalEntry a]

/-- The `for i, action_dict in enumerate(actions)` loop of
`run_actions_in_background` (lines 417-479): abort checkpoint, dispatch,
append the result (or the converted error), and sleep the interval after a
success that is not the last action (`i < len(actions) - 1`, rendered as
`i + 1 < n`).  The abort flags are modelled as the constant `abortF`
because no interleaved cancel is modelled. -/
def runLoop (interval : ℚ) (n : Nat) (abortF : Bool) :
    Nat → List ActionB → List Ev
  | _, [] => []
  | i, a :: rest =>
    if abortF then
      [Ev.appended abortedEntry]
    else
      match a.behavior with
      | .returns infos final =>
        (infos.map Ev.appended) ++ [Ev.appended final]
          ++ (if i + 1 < n ∧ final.status = "success"
              then [Ev.sleptInterval interval] else [])
          ++ runLoop interval n abortF (i + 1) rest
      | .raises infos e =>
        (infos.map Ev.appended)
          ++ [Ev.appended
                { status := "error",
                  message := executorErrorMsg e.tyName a.ctx e.locHint }]
          ++ runLoop interval n abortF (i + 1) rest

/-- `run_actions_in_background` (lines 394-481) as an event trace: the
optional start-delay block (lines 408-415), then the action loop.  The
final `execution_state.finish()` is applied by `runToState`. -/
def run_actions_in_background (actions : List ActionB)
    (interval start_delay : ℚ) (abortF : Bool) : List Ev :=
  if 0 < start_delay then
    [Ev.appended startDelayEntry, Ev.sleptStartDelay start_delay]
      ++ (if abortF then [Ev.appended delayAbortedEntry]
          else runLoop interval actions.length abortF 0 actions)
  else runLoop interval actions.length abortF 0 actions

/-- The outcomes appended by a trace, in order. -/
def appendedOf (evs : List Ev) : List RE :=
  evs.filterMap (fun e =>
    match e with
    | .appended r => some r
    | .sleptStartDelay _ => none
    | .sleptInterval _ => none)

/-- Effect of one trace event on `ExecutionState` (sleeps touch nothing). -/
def applyEv (st : ExecutionState) : Ev → ExecutionState
  | .appended r => st.add_result r
  | .sleptStartDelay _ => st
  | .sleptInterval _ => st

/-- Replay a trace against an `ExecutionState`. -/
def applyEvents (st : ExecutionState) (evs : List Ev) : ExecutionState :=
  evs.foldl applyEv st

/-- The state after a full background run: replay the trace, then
`execution_state.finish()` (line 481). -/
def runToState (actions : List ActionB) (interval start_delay : ℚ)
    (abortF : Bool) (st : ExecutionState) : ExecutionState :=
  (applyEvents st
    (run_actions_in_background actions interval start_delay abortF)).finish

/-- With no abort requested, the executor loop produces, per action and in
order, its handler-pushed outcomes, its final entry, and the interval sleep
exactly for a successful non-last action. -/
theorem runLoop_characterization (interval : ℚ) (n : Nat) (l : List ActionB)
    (i : Nat) :
    runLoop interval n false i l
      = (l.enumFrom i).flatMap (fun p =>
          (actionEntries p.2).map Ev.appended
            ++ (if p.1 + 1 < n ∧ (finalEntry p.2).status = "success"
                then [Ev.sleptInterval interval] else [])) := by
  induction l generalizing i with
  | nil => rfl
  | cons a rest ih =>
    obtain ⟨ctx, b⟩ := a
    have hne : ¬(("error" : String) = "success") := by decide
    cases b with
    | returns infos final =>
      rw [List.enumFrom_cons, List.flatMap_cons, ← ih (i + 1)]
      show (infos.map Ev.appended) ++ [Ev.appended final]
          ++ (if i + 1 < n ∧ final.status = "success"
              then [Ev.sleptInterval interval] else [])
          ++ runLoop interval n false (i + 1) rest = _
      simp [actionEntries, handlerInfos, finalEntry, List.map_append,
        List.append_assoc]
    | raises infos e =>
      rw [List.enumFrom_cons, List.flatMap_cons, ← ih (i + 1)]
      show (infos.map Ev.appended)
          ++ [Ev.appended
                { status := "error",
                  message := executorErrorMsg e.tyName ctx e.locHint }]
          ++ runLoop interval n false (i + 1) rest = _
      simp [actionEntries, handlerInfos, finalEntry, List.map_append,
        List.append_assoc, hne]

/-- Claim C7 (confirmed): in an unaborted run the trace is exactly, per
enumerated action, its appended outcomes followed by one interval sleep
precisely when the action's final outcome has status "success" and the
action is not the last (`i + 1 < len(actions)`); hence no delay follows a
not_found, timeout, error or aborted outcome and none follows the final
action.  Moreover, in an aborted run the executor appends a single aborted
outcome and sleeps no interval at all. -/
theorem c7_interval_sleep_iff_success (actions : List ActionB)
    (interval start_delay : ℚ) :
    run_actions_in_background actions interval start_delay false
      = (if 0 < start_delay
          then [Ev.appended startDelayEntry, Ev.sleptStartDelay start_delay]
          else [])
        ++ actions.enum.flatMap (fun p =>
            (actionEntries p.2).map Ev.appended
              ++ (if p.1 + 1 < actions.length
                    ∧ (finalEntry p.2).status = "success"
                  then [Ev.sleptInterval interval] else []))
    ∧ ∀ (acts2 : List ActionB) (q : ℚ),
        run_actions_in_background acts2 q 0 true
          = (match acts2 with
             | [] => []
             | _ :: _ => [Ev.appended abortedEntry]) := by
  constructor
  · unfold run_actions_in_background
    by_cases hd : (0 : ℚ) < start_delay
    · rw [if_pos hd, if_pos hd]
      show [Ev.appended startDelayEntry, Ev.sleptStartDelay start_delay]
          ++ runLoop interval actions.length false 0 actions = _
      rw [runLoop_characterization]
      rfl
    · rw [if_neg hd, if_neg hd]
      rw [runLoop_characterization]
      rfl
  · intro acts2 q
    unfold run_actions_in_background
    rw [if_neg (by norm_num)]
    cases acts2 with
    | nil => rfl
    | cons a rest => rfl

theorem appendedOf_append (l1 l2 : List Ev) :
    appendedOf (l1 ++ l2) = appendedOf l1 ++ appendedOf l2 := by
  unfold appendedOf
  rw [List.filterMap_append]

theorem appendedOf_map_appended (l : List RE) :
    appendedOf (l.map Ev.appended) = l := by
  induction l with
  | nil => rfl
  | cons r rest ih =>
    show r :: appendedOf (rest.map Ev.appended) = r :: rest
    rw [ih]

theorem appendedOf_sleep_if (c : Prop) [Decidable c] (q : ℚ) :
    appendedOf (if c then [Ev.sleptInterval q] else []) = [] := by
  by_cases hc : c
  · rw [if_pos hc]; rfl
  · rw [if_neg hc]; rfl

/-- With no abort requested, the outcomes the executor loop appends are
exactly the per-action entries, every action contributing, in order. -/
theorem appendedOf_runLoop (interval : ℚ) (n : Nat) (l : List ActionB)
    (i : Nat) :
    appendedOf (runLoop interval n false i l)
      = l.flatMap actionEntries := by
  induction l generalizing i with
  | nil => rfl
  | cons a rest ih =>
    obtain ⟨ctx, b⟩ := a
    cases b with
    | returns infos final =>
      show appendedOf ((infos.map Ev.appended) ++ [Ev.appended final]
          ++ (if i + 1 < n ∧ final.status = "success"
              then [Ev.sleptInterval interval] else [])
          ++ runLoop interval n false (i + 1) rest) = _
      rw [List.flatMap_cons]
      rw [appendedOf_append, appendedOf_append, appendedOf_append,
        appendedOf_map_appended, appendedOf_sleep_if, ih (i + 1)]
      simp [actionEntries, handlerInfos, finalEntry, appendedOf]
    | raises infos e =>
      show appendedOf ((infos.map Ev.appended)
          ++ [Ev.appended
                { status := "error",
                  message := executorErrorMsg e.tyName ctx e.locHint }]
          ++ runLoop interval n false (i + 1) rest) = _
      rw [List.flatMap_cons]
      rw [appendedOf_append, appendedOf_append, appendedOf_map_appended,
        ih (i + 1)]
      simp [actionEntries, handlerInfos, finalEntry, appendedOf]

/-- Claim C6 (confirmed): when the handler of one action raises an
exception, the executor appends exactly one error outcome for it — carrying
`"エラー: " ++ <exception type name>` and, when a traceback hint is
available, a trailing `[場所: <hint>]` — at that action's position in the
log; every preceding and following action still contributes its entries,
and the run still reaches `finish()` (`completed = true`), so the exception
neither ends the run early nor crashes the process. -/
theorem c6_exception_converted_to_error (pre post : List ActionB)
    (ctx : String) (infos : List RE) (e : Exn)
    (interval start_delay : ℚ) (st : ExecutionState) :
    appendedOf (run_actions_in_background
        (pre ++ { ctx := ctx, behavior := .raises infos e } :: post)
        interval start_delay false)
      = (if 0 < start_delay then [startDelayEntry] else [])
        ++ (pre.flatMap actionEntries ++ (infos
        ++ ({ status := "error",
              message := executorErrorMsg e.tyName ctx e.locHint }
            :: post.flatMap actionEntries)))
    ∧ (runToState (pre ++ { ctx := ctx, behavior := .raises infos e } :: post)
        interval start_delay false st).completed = true
    ∧ (∃ s, executorErrorMsg e.tyName ctx e.locHint
          = "エラー: " ++ (e.tyName ++ s))
    ∧ (∀ l, e.locHint = some l →
        ∃ s, executorErrorMsg e.tyName ctx e.locHint
          = s ++ (" [場所: " ++ (l ++ "]"))) := by
  refine ⟨?_, rfl, ?_, ?_⟩
  · unfold run_actions_in_background
    by_cases hd : (0 : ℚ) < start_delay
    · rw [if_pos hd, if_pos hd]
      show appendedOf
          ([Ev.appended startDelayEntry, Ev.sleptStartDelay start_delay]
            ++ runLoop interval _ false 0 _) = _
      rw [appendedOf_append, appendedOf_runLoop, List.flatMap_append,
        List.flatMap_cons]
      show [startDelayEntry] ++ _ = _
      simp [actionEntries, handlerInfos, finalEntry, List.append_assoc]
    · rw [if_neg hd, if_neg hd]
      rw [appendedOf_runLoop, List.flatMap_append, List.flatMap_cons]
      simp [actionEntries, handlerInfos, finalEntry, List.append_assoc]
  · refine ⟨(if ctx = "" then "" else " (" ++ ctx ++ ")")
      ++ (match e.locHint with
          | some l => " [場所: " ++ l ++ "]"
          | none => ""), ?_⟩
    unfold executorErrorMsg
    simp [String.append_assoc]
  · intro l hl
    refine ⟨"エラー: " ++ e.tyName
      ++ (if ctx = "" then "" else " (" ++ ctx ++ ")"), ?_⟩
    unfold executorErrorMsg
    rw [hl]
    simp [String.append_assoc]

/-- Witness for `c6_exception_converted_to_error`: a one-action run whose
handler raises `ValueError` with traceback hint "L42", starting from a
freshly claimed state; the location-hint hypothesis is discharged at
`some "L42"`. -/
theorem c6_exception_converted_to_error_witness :
    (∃ s, executorErrorMsg "ValueError" "img.png" (some "L42")
        = "エラー: " ++ ("ValueError" ++ s))
    ∧ (∃ s, executorErrorMsg "ValueError" "img.png" (some "L42")
        = s ++ (" [場所: " ++ ("L42" ++ "]")))
    ∧ (runToState
        [{ ctx := "img.png",
           behavior := .raises [] { tyName := "ValueError",
                                    locHint := some "L42" } }]
        2 0 false ((ExecutionState.init.start 1 "r").2)).completed = true := by
  have h := c6_exception_converted_to_error [] [] "img.png" []
    { tyName := "ValueError", locHint := some "L42" } 2 0
    ((ExecutionState.init.start 1 "r").2)
  exact ⟨h.2.2.1, h.2.2.2 "L42" rfl, h.2.1⟩

/-- Counters of the observable side activity of `execute_wait_disappear`'s
polling loop: loop iterations entered, pointer nudges performed, and
cancellation-flag checks evaluated. -/
structure WDTrace where
  loopIters : Nat
  nudges : Nat
  abortChecks : Nat
deriving DecidableEq

/-- The `while time.time() - start_time < timeout` polling loop of
`execute_wait_disappear` (lines 728-752).  Wall-clock expiry is embedded
as the iteration budget `fuel`; `probes k` is the k-th in-loop probe
result.  Each iteration first checks the (constant, see `runLoop`) abort
flags, then probes; a hit nudges the pointer and continues. -/
def waitDisappearLoop (probes : Nat → Option Loc) (image_name : String)
    (abortF : Bool) : Nat → Nat → WDTrace → RE × WDTrace
  | 0, _, tr =>
    ({ status := "timeout",
       message := "タイムアウト: " ++ image_name ++ " が時間内に消えませんでした" }, tr)
  | fuel + 1, k, tr =>
    let tr1 : WDTrace :=
      { loopIters := tr.loopIters + 1, nudges := tr.nudges,
        abortChecks := tr.abortChecks + 1 }
    if abortF then
      ({ status := "aborted",
         message := "[消失待機] 中止されました: " ++ image_name }, tr1)
    else
      match probes k with
      | none =>
        ({ status := "success",
           message := "[消失待機] 画像が消えました: " ++ image_name }, tr1)
      | some _ =>
        waitDisappearLoop probes image_name abortF fuel (k + 1)
          { loopIters := tr1.loopIters, nudges := tr1.nudges + 1,
            abortChecks := tr1.abortChecks }

/-- `execute_wait_disappear` (lines 705-752): parameter checks, the initial
probe (`probes 0`, lines 714-722) — succeeding immediately when the
template is already absent — then the polling loop on the subsequent probe
results.  The elapsed-seconds figure of the in-loop success message is
wall-clock data and is not modelled. -/
def execute_wait_disappear (probes : Nat → Option Loc) (image_name : String)
    (imageExists : Bool) (timeoutIters : Nat) (abortF : Bool) :
    RE × WDTrace :=
  if image_name = "" then
    ({ status := "error", message := "画像が指定されていません" },
     { loopIters := 0, nudges := 0, abortChecks := 0 })
  else if imageExists = false then
    ({ status := "error",
       message := "画像ファイルが見つかりません: " ++ image_name },
     { loopIters := 0, nudges := 0, abortChecks := 0 })
  else
    match probes 0 with
    | none =>
      ({ status := "success",
         message := "[消失待機] 画像は既に画面にありません: " ++ image_name },
       { loopIters := 0, nudges := 0, abortChecks := 0 })
    | some _ =>
      waitDisappearLoop (fun k => probes (k + 1)) image_name abortF
        timeoutIters 0 { loopIters := 0, nudges := 0, abortChecks := 0 }

/-- Claim C8 (confirmed): `execute_wait_disappear` on an existing template
that is absent at call time (initial probe finds nothing) returns a Success
outcome immediately, with zero polling-loop iterations, zero pointer nudges
and zero cancellation-flag checks. -/
theorem c8_wait_disappear_already_absent (probes : Nat → Option Loc)
    (image_name : String) (timeoutIters : Nat) (abortF : Bool)
    (hname : image_name ≠ "") (habsent : probes 0 = none) :
    execute_wait_disappear probes image_name true timeoutIters abortF
      = ({ status := "success",
           message := "[消失待機] 画像は既に画面にありません: " ++ image_name },
         { loopIters := 0, nudges := 0, abortChecks := 0 }) := by
  unfold execute_wait_disappear
  rw [if_neg hname, if_neg (by decide), habsent]

/-- Witness for `c8_wait_disappear_already_absent`: template "done.png",
never on screen, budget 100 iterations. -/
theorem c8_wait_disappear_already_absent_witness :
    execute_wait_disappear (fun _ => none) "done.png" true 100 false
      = ({ status := "success",
           message := "[消失待機] 画像は既に画面にありません: " ++ "done.png" },
         { loopIters := 0, nudges := 0, abortChecks := 0 }) :=
  c8_wait_disappear_already_absent (fun _ => none) "done.png" 100 false
    (by decide) rfl

/-- Info progress entry of `execute_loop_click` (lines 952-956), appended
on the first iteration, every tenth, and the last. -/
def loopProgressEntry (i1 loop_count succ fail : Nat) : RE :=
  { status := "info",
    message := "[ループクリック] " ++ toString i1 ++ "/" ++ toString loop_count
      ++ "回完了 (成功: " ++ toString succ ++ ", 失敗: " ++ toString fail ++ ")" }

/-- Aborted summary of `execute_loop_click` (line 931). -/
def loopAbortedEntry (i loop_count succ fail : Nat) : RE :=
  { status := "aborted",
    message := "[ループクリック] " ++ toString i ++ "/" ++ toString loop_count
      ++ "回で中止 (成功: " ++ toString succ ++ ", 失敗: " ++ toString fail ++ ")" }

/-- Success summary of `execute_loop_click` (line 962). -/
def loopDoneEntry (loop_count succ fail : Nat) : RE :=
  { status := "success",
    message := "[ループクリック] " ++ toString loop_count
      ++ "回完了 (成功: " ++ toString succ ++ ", 失敗: " ++ toString fail ++ ")" }

/-- The `for i in range(loop_count)` loop of `execute_loop_click`
(lines 928-962): abort checkpoint, one descending-threshold click attempt
(the same ladder as `execute_click`), counter update, progress info pushed
through `execution_state.add_result` when `i == 0` or `(i+1) % 10 == 0` or
`i == loop_count - 1`, and the final summary.  Returns (pushed infos,
final result); `remaining = loop_count - i` drives the recursion. -/
def loopClickGo (screen : Screen) (confidence min_confidence : ℚ)
    (loop_count : Nat) (abortF : Bool) :
    Nat → Nat → Nat → Nat → List RE × RE
  | 0, _, succ, fail => ([], loopDoneEntry loop_count succ fail)
  | remaining + 1, i, succ, fail =>
    if abortF then
      ([], loopAbortedEntry i loop_count succ fail)
    else
      let clicked := (ladderSearch screen confidence min_confidence).isSome
      let succ2 := if clicked then succ + 1 else succ
      let fail2 := if clicked then fail else fail + 1
      let infos :=
        if i = 0 ∨ (i + 1) % 10 = 0 ∨ i = loop_count - 1
        then [loopProgressEntry (i + 1) loop_count succ2 fail2] else []
      let rest := loopClickGo screen confidence min_confidence loop_count
        abortF remaining (i + 1) succ2 fail2
      (infos ++ rest.1, rest.2)

/-- `execute_loop_click` (lines 914-962): parameter checks, then the
counted click loop.  The inter-iteration `time.sleep(loop_interval)`
produces no observable outcome and is not traced. -/
def execute_loop_click (screen : Screen) (image_name : String)
    (imageExists : Bool) (confidence min_confidence : ℚ)
    (loop_count : Nat) (abortF : Bool) : List RE × RE :=
  if image_name = "" then
    ([], { status := "error", message := "画像が指定されていません" })
  else if imageExists = false then
    ([], { status := "error",
           message := "画像ファイルが見つかりません: " ++ image_name })
  else
    loopClickGo screen confidence min_confidence loop_count abortF
      loop_count 0 0 0

/-- A screen oracle that never matches at any threshold. -/
def screenNone : Screen := fun _ => none

theorem ladderSearch_screenNone (confidence min_confidence : ℚ) :
    ladderSearch screenNone confidence min_confidence = none := by
  unfold ladderSearch
  rw [List.findSome?_eq_none_iff]
  intro x _
  rfl

/-- A run consisting of a single LoopClick action (count 30, template never
found), as the executor sees it: the four Info progress outcomes the
handler pushes and its final summary. -/
def loopClickAction : ActionB :=
  { ctx := "loop.png",
    behavior := HandlerB.returns
      (execute_loop_click screenNone "loop.png" true (95 / 100) (7 / 10)
        30 false).1
      (execute_loop_click screenNone "loop.png" true (95 / 100) (7 / 10)
        30 false).2 }

/-- Final state of the single-LoopClick run started with
`start(len(actions)) = start(1)`. -/
def loopRunFinal : ExecutionState :=
  runToState [loopClickAction] 2 0 false
    ((ExecutionState.init.start 1 "run1").2)

/-- Final state of a one-action run with a positive start delay (5s): the
start-delay Info marker is appended before the single action outcome. -/
def delayRunFinal : ExecutionState :=
  runToState
    [{ ctx := "",
       behavior := HandlerB.returns []
         { status := "success", message := "[秒数待機] 1秒待機しました" } }]
    2 5 false ((ExecutionState.init.start 1 "run2").2)

/-- Claim C10 (confirmed): `current_step` counts every appended outcome —
handler-pushed Info progress markers and the start-delay marker included —
while `total_steps` is never touched by the run; consequently the final
`current_step` strictly exceeds `total_steps` for the single-LoopClick run
(5 outcomes against totalSteps 1) and for a run with a positive start delay
(2 outcomes against totalSteps 1). -/
theorem c10_step_index_exceeds_total_steps :
    (∀ (st : ExecutionState) (evs : List Ev),
        st.current_step = st.results.length →
        (applyEvents st evs).current_step
            = st.results.length + (appendedOf evs).length
          ∧ (applyEvents st evs).total_steps = st.total_steps)
    ∧ (loopRunFinal.total_steps = 1 ∧ loopRunFinal.current_step = 5
        ∧ loopRunFinal.total_steps < loopRunFinal.current_step)
    ∧ (delayRunFinal.total_steps = 1 ∧ delayRunFinal.current_step = 2
        ∧ delayRunFinal.total_steps < delayRunFinal.current_step) := by
  have hcount : ∀ (evs : List Ev) (st : ExecutionState),
      st.current_step = st.results.length →
      (applyEvents st evs).current_step
          = st.results.length + (appendedOf evs).length
        ∧ (applyEvents st evs).total_steps = st.total_steps := by
    intro evs
    induction evs with
    | nil =>
      intro st h
      refine ⟨?_, rfl⟩
      show st.current_step = st.results.length + 0
      rw [h]
      omega
    | cons ev rest ih =>
      intro st h
      cases ev with
      | appended r =>
        have hstep := ih (st.add_result r) rfl
        have hres : (st.add_result r).results = st.results ++ [r] := rfl
        have htot : (st.add_result r).total_steps = st.total_steps := rfl
        have happ : appendedOf (Ev.appended r :: rest)
            = r :: appendedOf rest := rfl
        have hev : applyEvents st (Ev.appended r :: rest)
            = applyEvents (st.add_result r) rest := rfl
        constructor
        · rw [hev, hstep.1, hres, happ]
          simp only [List.length_append, List.length_cons, List.length_nil]
          omega
        · rw [hev, hstep.2, htot]
      | sleptStartDelay q => exact ih st h
      | sleptInterval q => exact ih st h
  have hlc : execute_loop_click screenNone "loop.png" true (95 / 100)
      (7 / 10) 30 false
      = ([loopProgressEntry 1 30 0 1, loopProgressEntry 10 30 0 10,
          loopProgressEntry 20 30 0 20, loopProgressEntry 30 30 0 30],
         loopDoneEntry 30 0 30) := by
    simp [execute_loop_click, loopClickGo, ladderSearch_screenNone]
  have hloop : loopRunFinal.total_steps = 1
      ∧ loopRunFinal.current_step = 5 := by
    unfold loopRunFinal runToState run_actions_in_background loopClickAction
    rw [hlc, if_neg (by norm_num : ¬((0 : ℚ) < 0))]
    exact ⟨rfl, rfl⟩
  have hdelay : delayRunFinal.total_steps = 1
      ∧ delayRunFinal.current_step = 2 := by
    unfold delayRunFinal runToState run_actions_in_background
    rw [if_pos (by norm_num : (0 : ℚ) < 5)]
    exact ⟨rfl, rfl⟩
  refine ⟨fun st evs => hcount evs st, ⟨hloop.1, hloop.2, ?_⟩,
    ⟨hdelay.1, hdelay.2, ?_⟩⟩
  · rw [hloop.1, hloop.2]; omega
  · rw [hdelay.1, hdelay.2]; omega

/-- Witness for `c10_step_index_exceeds_total_steps`: the counting
conjunct applied at the initial state and a one-append trace. -/
theorem c10_step_index_exceeds_total_steps_witness :
    (applyEvents ExecutionState.init [Ev.appended abortedEntry]).current_step
      = ExecutionState.init.results.length
        + (appendedOf [Ev.appended abortedEntry]).length
    ∧ (applyEvents ExecutionState.init
        [Ev.appended abortedEntry]).total_steps
      = ExecutionState.init.total_steps :=
  c10_step_index_exceeds_total_steps.1 ExecutionState.init
    [Ev.appended abortedEntry] rfl

end ImageClick
